import Mathlib

/-!
Verification of the PSS RAG system core against its source.

Shallow embedding of the Python sources:
* `Extract_PDF.py`  : PDF text extraction and per-page noise trimming,
* `Rag.py`          : query resolution over the FAISS flat index,
* `utils/security.py` : rate limiting and input validation,
* `services/llm_service.py` : answer generation with safety gating and
  mock fallback.

External effects (file IO, wall-clock response times, logging transport,
the sentence-embedding model) are abstracted to explicit parameters;
pure computation is translated statement by statement. The Python string
primitives used by the sources are given executable structural
definitions over character lists so every concrete run can be evaluated
inside the logic.
-/

/-! ## Python string primitives -/

/-- Python str.lower. -/
def strLower (s : String) : String := String.mk (s.data.map Char.toLower)

/-- Python str.endswith. -/
def strEndsWith (s suffix : String) : Bool := suffix.data.isSuffixOf s.data

/-- Python slice `s[:-n]` for `n ≤ len(s)`: drop the last `n`
characters. -/
def strDropRight (s : String) (n : Nat) : String :=
  String.mk (s.data.take (s.data.length - n))

/-- Python slice `s[:n]`: the first `n` characters. -/
def strTake (s : String) (n : Nat) : String := String.mk (s.data.take n)

/-- Python `not s or not s.strip()`: the string has no non-whitespace
character. -/
def isBlank (s : String) : Bool := s.data.all Char.isWhitespace

/-- Python str.strip: remove leading and trailing whitespace. -/
def pyStrip (s : String) : String :=
  String.mk (((s.data.dropWhile Char.isWhitespace).reverse.dropWhile
    Char.isWhitespace).reverse)

/-- Substring occurrence test on character lists. -/
def containsSub : List Char → List Char → Bool
  | [], pat => pat.isEmpty
  | h :: t, pat => pat.isPrefixOf (h :: t) || containsSub t pat

/-- Python substring test `needle in hay`. -/
def strContains (hay needle : String) : Bool := containsSub hay.data needle.data

/-- Splitting a character list at newline characters, keeping empty
parts, as Python str.split of a newline does. -/
def splitNlAux : List Char → List (List Char)
  | [] => [[]]
  | c :: cs =>
    if c = '\n' then [] :: splitNlAux cs
    else
      match splitNlAux cs with
      | [] => [[c]]
      | p :: ps => (c :: p) :: ps

/-- Python `s.split` at the newline character. -/
def splitNl (s : String) : List String := (splitNlAux s.data).map String.mk

/-- Python `"\n".join(lines)`. -/
def joinNl : List String → String
  | [] => ""
  | [s] => s
  | s :: rest => s ++ "\n" ++ joinNl rest

/-- Removal of every non-overlapping occurrence of a (nonempty) pattern,
scanning left to right, with explicit fuel for structural recursion; with
fuel at least the input length this is Python `s.replace(pat, "")`. -/
def removeSubAux (pat : List Char) : Nat → List Char → List Char
  | 0, cs => cs
  | _ + 1, [] => []
  | n + 1, c :: cs =>
    if pat.isPrefixOf (c :: cs) then removeSubAux pat n ((c :: cs).drop pat.length)
    else c :: removeSubAux pat n cs

/-- Python `s.replace(pat, "")` for a nonempty pattern. -/
def removeSub (s pat : String) : String :=
  String.mk (removeSubAux pat.data s.data.length s.data)

/-! ## Extract_PDF.py -/

/-- Word characters of the Python regex class backslash-w,
restricted to the alphanumeric plus underscore range used by the corpus. -/
def isWordChar (c : Char) : Bool := c.isAlphanum || c == '_'

/-- Accumulator pass behind `pyTokens`: `cur` holds the characters of the
word run currently being read, in reverse. -/
def pyTokensAux (cur : List Char) : List Char → List String
  | [] => if cur.isEmpty then [] else [String.mk cur.reverse]
  | c :: cs =>
    if isWordChar c then pyTokensAux (c :: cur) cs
    else
      (if cur.isEmpty then [] else [String.mk cur.reverse]) ++
        (if c.isWhitespace then pyTokensAux [] cs
         else String.mk [c] :: pyTokensAux [] cs)

/-- Tokenization performed by re.findall of a word run or a single
non-word non-space character, as in `Extract_PDF.py` line 41: maximal runs
of word characters become one token each, whitespace separates tokens, and
every other character is a token by itself. -/
def pyTokens (cs : List Char) : List String := pyTokensAux [] cs

/-- Tokens of one line of page text. -/
def tokensOf (line : String) : List String := pyTokens line.data

/-- Loop state of the per-page line scan in `extract_chunks_from_pdf`:
`count` is the consecutive-sparse-line counter, `tem` the accumulated
output lines (Python `tem_text`, appended at the back). -/
structure ScanState where
  count : Nat
  tem : List String
deriving DecidableEq

/-- Python slice `tem_text[0:-20]`: everything but the last 20 entries
(empty when at most 20 entries exist). -/
def sliceDropLast20 (l : List String) : List String := l.take (l.length - 20)

/-- One iteration of the `for line in lines` loop of
`Extract_PDF.py` lines 38-51, translated branch by branch. -/
def lineStep (st : ScanState) (line : String) : ScanState :=
  if line.length < 3 then st
  else
    let toks := tokensOf line
    let tem1 := if st.count = 20 then sliceDropLast20 st.tem else st.tem
    if toks.length < 5 ∧ 20 ≤ st.count then ⟨st.count + 1, tem1⟩
    else if toks.length < 5 then ⟨st.count + 1, tem1 ++ [line]⟩
    else ⟨0, tem1 ++ [line]⟩

/-- Final accumulated lines after scanning a full page
(`count = 0` and `tem_text = []` are reset at every page start). -/
def pageLines (lines : List String) : List String :=
  (lines.foldl lineStep ⟨0, []⟩).tem

/-- Per-page processing of `extract_chunks_from_pdf`: strip the fixed
watermark substring from the raw page text, split into lines, run the
noise-trimming scan, and rejoin with newlines. -/
def processPage (pageText : String) : String :=
  joinNl (pageLines (splitNl (removeSub pageText "www.psands.com")))

/-- A file met by the directory walk: its name as reported by os.walk and,
when it is a PDF, the raw text of each of its pages as returned by
page.get_text(). -/
structure PdfDoc where
  fileName : String
  pages : List String
deriving DecidableEq

/-- `extract_chunks_from_pdf` over a directory modelled as the walk-order
list of discovered files: names of files ending in ".pdf"
(case-insensitively) are collected with the extension stripped, and the
second loop appends one processed chunk per PAGE of each PDF (the
`chunks.append` sits inside the page loop of the source). -/
def extract_chunks_from_pdf (files : List PdfDoc) : List String × List String :=
  let pdfs := files.filter (fun f => strEndsWith (strLower f.fileName) ".pdf")
  let file_names := pdfs.map (fun f => strDropRight f.fileName 4)
  let chunks := pdfs.foldl (fun acc f => acc ++ f.pages.map processPage) []
  (chunks, file_names)

/-! ## Rag.py : query resolution -/

/-- Inner product of two embedding vectors. Components are idealized as
exact integers in place of float32 — no claim below depends on the numeric
domain — and the L2 normalization applied at build and query time rescales
all scores by positive factors without affecting the ranking, so vectors
are taken as given. -/
def dot (a b : List ℤ) : ℤ := (List.zipWith (fun x y => x * y) a b).sum

/-- Ranking relation of the search results: higher inner product first,
ties by lower stored index. -/
def rankLe (a b : ℤ × Nat) : Prop := b.1 < a.1 ∨ (a.1 = b.1 ∧ a.2 ≤ b.2)

instance : DecidableRel rankLe := fun a b =>
  inferInstanceAs (Decidable (b.1 < a.1 ∨ (a.1 = b.1 ∧ a.2 ≤ b.2)))

/-- Model of faiss IndexFlatIP.search over the stored vectors `xs` for one
query vector: exact top-k selection by inner product (best first), and,
exactly as documented by faiss, when fewer than `k` vectors are stored the
label array is padded with `-1` up to length `k`. -/
def faissSearch (xs : List (List ℤ)) (q : List ℤ) (k : Nat) : List Int :=
  let scored := (List.range xs.length).map (fun i => (dot q (xs.getD i []), i))
  let ranked := List.insertionSort rankLe scored
  let top := (ranked.map (fun p => (p.2 : Int))).take k
  top ++ List.replicate (k - top.length) (-1)

/-- Python list subscription `xs[i]` with an integer index: nonnegative
indices in range, negative indices counted from the back, and `none` for
the IndexError raised outside either range. -/
def pyIndex {α : Type} (xs : List α) (i : Int) : Option α :=
  if 0 ≤ i then xs.get? i.toNat
  else if -(xs.length : Int) ≤ i then xs.get? ((xs.length : Int) + i).toNat
  else none

/-- The retrieval loop of `process_query` (`Rag.py` lines 152-154): for
every search label, look up `self.chunks[idx]` and `self.file_names[idx]`;
an IndexError anywhere aborts the whole loop (the caller catches it). -/
def lookupPairs (chunks names : List String) : List Int → Option (List (String × String))
  | [] => some []
  | i :: is =>
    match pyIndex chunks i, pyIndex names i, lookupPairs chunks names is with
    | some c, some f, some rest => some ((c, f) :: rest)
    | _, _, _ => none

/-- Accumulator pass behind `digitRuns`: `cur` holds the digits of the run
currently being read, in reverse. -/
def digitRunsAux (cur : List Char) : List Char → List String
  | [] => if cur.isEmpty then [] else [String.mk cur.reverse]
  | c :: cs =>
    if c.isDigit then digitRunsAux (c :: cur) cs
    else (if cur.isEmpty then [] else [String.mk cur.reverse]) ++ digitRunsAux [] cs

/-- Maximal runs of decimal digits, as found by re.findall of one or more
digits (`Rag.py` line 158). -/
def digitRuns (cs : List Char) : List String := digitRunsAux [] cs

/-- First maximal digit run of a source name, if any (`numbers[0]`). -/
def firstNumber (s : String) : Option String := (digitRuns s.data).head?

/-- An admissible iteration of a CPython set built from the list `xs`:
CPython leaves set iteration order unspecified (it depends on randomized
string hashing), so `list(set(xs))` is modelled as any duplicate-free list
with exactly the members of `xs`. -/
def SetEnumOK (f : List String → List String) : Prop :=
  ∀ xs : List String, (f xs).Nodup ∧ ∀ s, s ∈ f xs ↔ s ∈ xs

/-- Duplicate removal keeping the first occurrence of each element, in
encounter order: one admissible set enumeration, and the order the spec
claims for the deduplication step. -/
def dedupFirstSeen : List String → List String
  | [] => []
  | x :: xs => x :: (dedupFirstSeen xs).filter (fun y => y != x)

/-- Project-number derivation of `process_query` (`Rag.py` lines 156-166):
first digit run of each returned source name (names without digits
contribute nothing), `list(set(...))` deduplication modelled by the
enumeration parameter `setEnum`, then the literal "0" prefix. -/
def projectNumbers (setEnum : List String → List String) (files : List String) : List String :=
  (setEnum (files.filterMap firstNumber)).map (fun f => "0" ++ f)

/-- Comparison definition following the words of the spec for C6: the same
derivation but with the deduplication REQUIRED to preserve first-seen
order. -/
def claimedProjectIds (files : List String) : List String :=
  (dedupFirstSeen (files.filterMap firstNumber)).map (fun f => "0" ++ f)

/-- Result triple of a successful `process_query` run. -/
structure QueryOut where
  top_chunks : List String
  top_files : List String
  project_numbers : List String
deriving DecidableEq

/-- `RAGSystem.process_query` (`Rag.py` lines 128-171). The security check
is abstracted to its boolean outcome `allowed`, and the embedding of the
question to the query vector `qvec`; `none` models the `(None, None, None)`
return taken both on a failed rate-limit check and in the catch-all
exception handler. -/
def process_query (setEnum : List String → List String) (allowed : Bool)
    (chunks names : List String) (index : List (List ℤ))
    (qvec : List ℤ) (k : Nat) : Option QueryOut :=
  if !allowed then none
  else
    match lookupPairs chunks names (faissSearch index qvec k) with
    | none => none
    | some pairs =>
      some { top_chunks := pairs.map Prod.fst
             top_files := pairs.map Prod.snd
             project_numbers := projectNumbers setEnum (pairs.map Prod.snd) }

/-- Reversed first-seen deduplication: an admissible enumeration of a
CPython set that does NOT preserve first-seen order. -/
def revEnum (xs : List String) : List String := (dedupFirstSeen xs).reverse

/-! ## utils/security.py : rate limiting, validation, policy -/

/-- Eviction loop of `check_rate_limit`: pop entries from the front of the
per-client deque while the front timestamp is strictly older than the
cutoff `now - 60` (timestamps idealized as integers). -/
def evictOld (cutoff : ℤ) : List ℤ → List ℤ
  | [] => []
  | t :: ts => if t < cutoff then evictOld cutoff ts else t :: ts

/-- Outcome of one `check_rate_limit` call: the returned pair, the updated
per-client window, and the security events logged during the call (event
type, details, severity). -/
structure RateCheck where
  allowed : Bool
  remaining : Nat
  window : List ℤ
  events : List (String × String × String)
deriving DecidableEq

/-- `SecurityManager.check_rate_limit` (`utils/security.py` lines 52-79)
for one client: evict stale entries, block with a WARNING security event
when the window already holds at least `limit` entries (no timestamp
appended), otherwise append `now` and report the remaining budget. -/
def check_rate_limit (limit : Nat) (client_id : String) (now : ℤ)
    (window : List ℤ) : RateCheck :=
  let w := evictOld (now - 60) window
  if limit ≤ w.length then
    { allowed := false, remaining := 0, window := w
      events := [("RATE_LIMIT_EXCEEDED", "Client " ++ client_id ++ " exceeded rate limit", "WARNING")] }
  else
    { allowed := true, remaining := limit - w.length - 1, window := w ++ [now], events := [] }

/-- Session summary returned by `SecurityManager.get_session_info`
(the `session_start` datetime field is outside the model). -/
structure SessionInfo where
  client_id : String
  rate_limit_remaining : Nat
  requests_made : Nat
deriving DecidableEq

/-- `SecurityManager.get_session_info` (`utils/security.py` lines 168-178):
it calls `check_rate_limit` for the session client — mutating the window —
and reports the remaining budget and the post-call window size. Returns
the info record, the updated window, and the logged security events. -/
def get_session_info (limit : Nat) (client_id : String) (now : ℤ)
    (window : List ℤ) : SessionInfo × List ℤ × List (String × String × String) :=
  let rc := check_rate_limit limit client_id now window
  ({ client_id := client_id, rate_limit_remaining := rc.remaining,
     requests_made := rc.window.length }, rc.window, rc.events)

/-- `SecurityManager.validate_input` (`utils/security.py` lines 81-110):
reject empty or whitespace-only input, overlong input, and input matching
the denylist; otherwise return the sanitized input. The eight denylist
regular expressions are abstracted as the Boolean oracle `blockedHit`,
applied to the lowercased input exactly as the source applies re.search,
and the regex-based `sanitize_input` transform as `sanitize`; every
theorem below holds for all instantiations of these oracles. -/
def validate_input (maxLen : Nat) (blockedHit : String → Bool)
    (sanitize : String → String) (input : String) : Bool × String :=
  if isBlank input then (false, "Empty input not allowed")
  else if maxLen < input.length then
    (false, "Input too long. Maximum " ++ toString maxLen ++ " characters allowed.")
  else if blockedHit (strLower input) then
    (false, "Input contains potentially malicious content")
  else (true, sanitize input)

/-- `SecurityManager.check_content_policy` (`utils/security.py` lines
144-165): the three word-boundary category regexes are abstracted as the
oracle `policyHit` on the lowercased text, returning the matched category
if any. -/
def check_content_policy (policyHit : String → Option String)
    (text : String) : Bool × String :=
  match policyHit (strLower text) with
  | some category => (false, "Content violates policy: " ++ category)
  | none => (true, "Content approved")

/-! ## services/llm_service.py : answer generation -/

/-- Result dictionary of `generate_response` (the wall-clock
`response_time` and `token_count` fields are outside the model). -/
structure GenResult where
  success : Bool
  error : Option String
  response : Option String
deriving DecidableEq

/-- Mutable fields of the `LLMService` instance that the claims touch.
`mock_ready` states that `self.mock_service` is set; `mock_importable`
states that importing `services.mock_llm_service` would succeed. -/
structure LLMState where
  use_mock : Bool
  mock_ready : Bool
  mock_importable : Bool
  total_requests : Nat
  error_count : Nat
deriving DecidableEq

/-- One call to the Bedrock converse API: a reply (with `none` standing
for a response dict without the expected output text field), a botocore
ClientError carrying its message, or any other exception. -/
inductive BackendOutcome where
  | ok (text : Option String)
  | clientError (msg : String)
  | exc (msg : String)
deriving DecidableEq

/-- Failure dictionary shared by all error returns of
`generate_response`. -/
def failResult (msg : String) : GenResult :=
  { success := false, error := some msg, response := none }

/-- `LLMService._initialize_mock_service` after a successful import: the
instance switches to the mock service permanently. -/
def switchToMock (st : LLMState) : LLMState :=
  { st with use_mock := true, mock_ready := true }

/-- Fixed annotation appended to every mock-service response by
`_generate_mock_response`. -/
def MOCK_NOTE : String :=
  "\n\n⚠️ **Using Mock Service**: AWS Bedrock permissions are required for full AI capabilities. Please request access to bedrock:InvokeModel permission."

/-- `MockLLMService.generate_response`: always succeeds with a canned
reply built from the first 50 characters of the prompt. -/
def mock_generate (prompt : String) : GenResult :=
  { success := true, error := none
    response := some ("Mock response to: " ++ strTake prompt 50
      ++ "... This is a demonstration response.") }

/-- `LLMService._generate_mock_response`: delegate to the mock service when
it is set, annotating successful replies; otherwise report both services
unavailable. -/
def generate_mock_wrapped (st : LLMState) (prompt : String) : GenResult :=
  if st.mock_ready then
    let r := mock_generate prompt
    if r.success then { r with response := r.response.map (fun t => t ++ MOCK_NOTE) } else r
  else failResult "Both Bedrock and mock services unavailable"

/-- Full outcome of one `generate_response` call: the returned dictionary,
the number of Bedrock converse invocations made during the call, and the
instance state afterwards. -/
structure GenOutcome where
  result : GenResult
  backendCalls : Nat
  state : LLMState
deriving DecidableEq

/-- `LLMService.generate_response` (`services/llm_service.py` lines
78-221), translated branch by branch: immediate delegation when already in
mock mode; empty-input check; `validate_input`; `check_content_policy`;
context wrapping; the converse call (the `backend` parameter); response
extraction; redaction (oracle `redact`); and the two exception handlers
with AccessDenied-triggered permanent mock fallback. Client
re-initialization is elided (the client is treated as present in
non-mock mode). -/
def generate_response (maxLen : Nat) (blockedHit : String → Bool)
    (sanitize : String → String) (policyHit : String → Option String)
    (redact : String → String) (backend : String → BackendOutcome)
    (st : LLMState) (prompt : String) (context : Option String) : GenOutcome :=
  if st.use_mock && st.mock_ready then
    { result := generate_mock_wrapped st prompt, backendCalls := 0, state := st }
  else
    let st1 := { st with total_requests := st.total_requests + 1 }
    if isBlank prompt then
      { result := failResult "⚠️ Input cannot be empty.", backendCalls := 0, state := st1 }
    else
      let v := validate_input maxLen blockedHit sanitize prompt
      if v.1 = false then
        { result := failResult v.2, backendCalls := 0, state := st1 }
      else
        let p := check_content_policy policyHit v.2
        if p.1 = false then
          { result := failResult p.2, backendCalls := 0, state := st1 }
        else
          let full_prompt := match context with
            | some ctx => "Context: " ++ ctx ++ "\n\nQuestion: " ++ v.2
                ++ "\n\nPlease provide a helpful and accurate answer based on the context provided."
            | none => v.2
          match backend full_prompt with
          | BackendOutcome.ok none =>
            { result := failResult "❌ Unexpected response format from Bedrock."
              backendCalls := 1, state := st1 }
          | BackendOutcome.ok (some reply) =>
            { result := { success := true, error := none, response := some (redact reply) }
              backendCalls := 1, state := st1 }
          | BackendOutcome.clientError msg =>
            if strContains msg "AccessDeniedException" && st1.mock_importable then
              { result := generate_mock_wrapped (switchToMock st1) prompt
                backendCalls := 1, state := switchToMock st1 }
            else
              { result := failResult ("❌ [Bedrock API Error] " ++ msg)
                backendCalls := 1, state := { st1 with error_count := st1.error_count + 1 } }
          | BackendOutcome.exc msg =>
            if st1.mock_importable then
              { result := generate_mock_wrapped (switchToMock st1) prompt
                backendCalls := 1, state := switchToMock st1 }
            else
              { result := failResult ("❌ [Unexpected Error] " ++ msg)
                backendCalls := 1, state := { st1 with error_count := st1.error_count + 1 } }

/-! ## Helper lemmas -/

theorem lineStep_short (st : ScanState) (line : String) (h : line.length < 3) :
    lineStep st line = st := by
  simp [lineStep, h]

theorem mem_of_mem_lineStep (st : ScanState) (line s : String)
    (hs : s ∈ (lineStep st line).tem) :
    s ∈ st.tem ∨ (s = line ∧ 3 ≤ line.length) := by
  have hsub : ∀ t, t ∈ (if st.count = 20 then sliceDropLast20 st.tem else st.tem) →
      t ∈ st.tem := by
    intro t ht
    split at ht
    · exact List.take_subset _ _ ht
    · exact ht
  by_cases h : line.length < 3
  · rw [lineStep_short st line h] at hs
    exact Or.inl hs
  · have h3 : 3 ≤ line.length := Nat.le_of_not_lt h
    unfold lineStep at hs
    rw [if_neg h] at hs
    simp only at hs
    split at hs
    · exact Or.inl (hsub s hs)
    · split at hs <;>
      · rcases List.mem_append.mp hs with h1 | h1
        · exact Or.inl (hsub s h1)
        · exact Or.inr ⟨List.mem_singleton.mp h1, h3⟩

theorem mem_foldl_lineStep (lines : List String) (st : ScanState) (s : String)
    (hs : s ∈ (lines.foldl lineStep st).tem) : s ∈ st.tem ∨ 3 ≤ s.length := by
  induction lines generalizing st with
  | nil => exact Or.inl hs
  | cons l ls ih =>
    rcases ih (lineStep st l) hs with h1 | h1
    · rcases mem_of_mem_lineStep st l s h1 with h2 | ⟨rfl, h2⟩
      · exact Or.inl h2
      · exact Or.inr h2
    · exact Or.inr h1

/-! ## Claims about Extract_PDF.py -/

/-- Claim C1: the spec and the docstring of `extract_chunks_from_pdf` say
extraction yields one chunk per discovered PDF document with the pages
concatenated, keeping the chunk list and the source-name list parallel.
The code appends one chunk per PAGE: a single two-page PDF yields two
chunks against one source name — the parallel-length invariant fails and
the page texts stay separate chunks instead of being concatenated. -/
theorem C1_one_chunk_per_page :
    (extract_chunks_from_pdf
      [⟨"a.pdf", ["alpha beta gamma delta epsilon", "one two three four five six"]⟩]).1 =
      ["alpha beta gamma delta epsilon", "one two three four five six"] ∧
    (extract_chunks_from_pdf
      [⟨"a.pdf", ["alpha beta gamma delta epsilon", "one two three four five six"]⟩]).2 =
      ["a"] ∧
    (2 : Nat) ≠ 1 := by
  exact ⟨by decide, by decide, by decide⟩

/-- Claim C8 (counterexample): the claim places the drop of the last 20
lines at the moment the sparse counter reaches exactly 20. On a page whose
scan ends with the 20th consecutive sparse line the counter stands at 20
yet nothing was dropped: all 20 sparse lines remain in the output. -/
theorem C8_counterexample :
    (List.foldl lineStep ⟨0, []⟩ (List.replicate 20 "a b")).count = 20 ∧
    pageLines (List.replicate 20 "a b") = List.replicate 20 "a b" ∧
    pageLines (List.replicate 20 "a b") ≠ [] := by
  exact ⟨by decide, by decide, by decide⟩

/-- Claim C8 (amended): the drop fires at the START of the next line of
raw length at least 3 processed while the counter stands at exactly 20 —
hence at most once per sparse run — and a sparse line met with the counter
at 20 or above is skipped (not appended), while a dense line (5 or more
tokens) is appended after the pending drop, if any, and resets the counter
to 0. A page ending while the counter is exactly 20 keeps the trailing
sparse lines. -/
theorem C8_deferred_drop (st : ScanState) (line : String) :
    (line.length < 3 → lineStep st line = st) ∧
    (3 ≤ line.length → (tokensOf line).length < 5 → 20 ≤ st.count →
      lineStep st line =
        ⟨st.count + 1, if st.count = 20 then sliceDropLast20 st.tem else st.tem⟩) ∧
    (3 ≤ line.length → (tokensOf line).length < 5 → st.count < 20 →
      lineStep st line = ⟨st.count + 1, st.tem ++ [line]⟩) ∧
    (3 ≤ line.length → 5 ≤ (tokensOf line).length →
      lineStep st line =
        ⟨0, (if st.count = 20 then sliceDropLast20 st.tem else st.tem) ++ [line]⟩) := by
  refine ⟨fun h => lineStep_short st line h, fun h3 hsp hge => ?_, fun h3 hsp hlt => ?_,
    fun h3 hde => ?_⟩
  · unfold lineStep
    rw [if_neg (Nat.not_lt.mpr h3)]
    simp only
    rw [if_pos ⟨hsp, hge⟩]
  · unfold lineStep
    rw [if_neg (Nat.not_lt.mpr h3)]
    simp only
    rw [if_neg (by omega : ¬ ((tokensOf line).length < 5 ∧ 20 ≤ st.count)), if_pos hsp,
      if_neg (by omega : ¬ st.count = 20)]
  · unfold lineStep
    rw [if_neg (Nat.not_lt.mpr h3)]
    simp only
    rw [if_neg (by omega : ¬ ((tokensOf line).length < 5 ∧ 20 ≤ st.count)),
      if_neg (by omega : ¬ (tokensOf line).length < 5)]

/-- Witness for C8: a sparse line processed with the counter at exactly 20
triggers the deferred drop of the last 20 accumulated lines and is itself
skipped. -/
theorem C8_deferred_drop_witness :
    lineStep ⟨20, List.replicate 20 "a b"⟩ "c d" = ⟨21, []⟩ := by
  have h := (C8_deferred_drop ⟨20, List.replicate 20 "a b"⟩ "c d").2.1
    (by decide) (by decide) (by decide)
  rw [h]; decide

/-- Claim C9 (counterexample): the claim discards any line whose TRIMMED
length is under 3. The code tests the raw length: a line of one letter
padded with three spaces has trimmed length 1 but raw length 4, and it is
tokenized and appended to the output. -/
theorem C9_counterexample :
    (pyStrip " a  ").length < 3 ∧ " a  " ∈ pageLines [" a  "] := by
  exact ⟨by decide, by decide⟩

/-- Claim C9 (amended): a line is discarded outright — the scan state is
untouched, so the line is never tokenized nor appended — exactly when its
RAW (untrimmed) length is under 3 characters; consequently every line in a
page's output has raw length at least 3. -/
theorem C9_raw_length_filter :
    (∀ (st : ScanState) (line : String), line.length < 3 → lineStep st line = st) ∧
    (∀ (lines : List String) (s : String), s ∈ pageLines lines → 3 ≤ s.length) := by
  refine ⟨lineStep_short, fun lines s hs => ?_⟩
  rcases mem_foldl_lineStep lines ⟨0, []⟩ s hs with h | h
  · simp at h
  · exact h

/-- Witness for C9 at concrete inputs. -/
theorem C9_raw_length_filter_witness :
    lineStep ⟨5, ["xyz"]⟩ "ab" = ⟨5, ["xyz"]⟩ ∧ 3 ≤ (" a  " : String).length :=
  ⟨C9_raw_length_filter.1 ⟨5, ["xyz"]⟩ "ab" (by decide),
   C9_raw_length_filter.2 [" a  "] " a  " (by decide)⟩

/-! ## Lemmas about deduplication and the search model -/

theorem mem_dedupFirstSeen (l : List String) (s : String) :
    s ∈ dedupFirstSeen l ↔ s ∈ l := by
  induction l with
  | nil => simp [dedupFirstSeen]
  | cons x xs ih =>
    simp only [dedupFirstSeen, List.mem_cons, List.mem_filter, ih, bne_iff_ne]
    by_cases hsx : s = x
    · simp [hsx]
    · simp [hsx]

theorem nodup_dedupFirstSeen (l : List String) : (dedupFirstSeen l).Nodup := by
  induction l with
  | nil => simp [dedupFirstSeen]
  | cons x xs ih =>
    simp only [dedupFirstSeen, List.nodup_cons]
    refine ⟨?_, List.Nodup.filter _ ih⟩
    simp [List.mem_filter]

theorem setEnumOK_dedupFirstSeen : SetEnumOK dedupFirstSeen :=
  fun xs => ⟨nodup_dedupFirstSeen xs, fun s => mem_dedupFirstSeen xs s⟩

theorem nodup_singleton_of_mem {l : List String} {a : String}
    (hn : l.Nodup) (hm : ∀ s, s ∈ l ↔ s = a) : l = [a] := by
  cases l with
  | nil => exact absurd ((hm a).mpr rfl) (List.not_mem_nil a)
  | cons x xs =>
    have hx : x = a := (hm x).mp (List.mem_cons_self x xs)
    subst hx
    have hxs : xs = [] := by
      cases xs with
      | nil => rfl
      | cons y ys =>
        have hy : y = x := (hm y).mp (by simp)
        rw [List.nodup_cons] at hn
        exact absurd (by simp [hy]) hn.1
    rw [hxs]

theorem prefixZero_injective : Function.Injective (fun f : String => "0" ++ f) := by
  intro a b hab
  have h : ("0" ++ a).data = ("0" ++ b).data := congrArg String.data hab
  simp only [String.data_append] at h
  exact String.ext (List.cons_injective.eq_iff.mp h)

theorem faissSearch_label_cases (xs : List (List ℤ)) (q : List ℤ) (k : Nat)
    (i : Int) (hi : i ∈ faissSearch xs q k) :
    (∃ j : Nat, j < xs.length ∧ i = (j : Int)) ∨ i = -1 := by
  unfold faissSearch at hi
  simp only at hi
  rcases List.mem_append.mp hi with h | h
  · left
    obtain ⟨p, hp, rfl⟩ := List.mem_map.mp (List.mem_of_mem_take h)
    have hp2 := (List.perm_insertionSort rankLe _).subset hp
    obtain ⟨j, hj, rfl⟩ := List.mem_map.mp hp2
    exact ⟨j, List.mem_range.mp hj, rfl⟩
  · right
    exact List.eq_of_mem_replicate h

theorem faissSearch_length (xs : List (List ℤ)) (q : List ℤ) (k : Nat) :
    (faissSearch xs q k).length = k := by
  unfold faissSearch
  simp only [List.length_append, List.length_replicate, List.length_take, List.length_map]
  omega

theorem pyIndex_isSome_of_lt {α : Type} (xs : List α) (j : Nat) (hj : j < xs.length) :
    (pyIndex xs (j : Int)).isSome := by
  unfold pyIndex
  rw [if_pos (Int.natCast_nonneg j)]
  simp only [List.get?_eq_getElem?]
  rw [List.getElem?_eq_getElem (by omega : ((j : Int)).toNat < xs.length)]
  rfl

theorem pyIndex_neg_one_isSome {α : Type} (xs : List α) (hpos : 0 < xs.length) :
    (pyIndex xs (-1)).isSome := by
  unfold pyIndex
  rw [if_neg (by omega), if_pos (by omega : -((xs.length : Int)) ≤ -1)]
  have h1 : ((xs.length : Int) + -1).toNat = xs.length - 1 := by omega
  rw [h1]
  simp only [List.get?_eq_getElem?]
  rw [List.getElem?_eq_getElem (by omega : xs.length - 1 < xs.length)]
  rfl

theorem lookupPairs_some (chunks names : List String) (labels : List Int)
    (h : ∀ i ∈ labels, (pyIndex chunks i).isSome ∧ (pyIndex names i).isSome) :
    ∃ ps, lookupPairs chunks names labels = some ps ∧ ps.length = labels.length := by
  induction labels with
  | nil => exact ⟨[], rfl, rfl⟩
  | cons i is ih =>
    obtain ⟨hc, hn⟩ := h i (List.mem_cons_self _ _)
    obtain ⟨c, hc⟩ := Option.isSome_iff_exists.mp hc
    obtain ⟨f, hf⟩ := Option.isSome_iff_exists.mp hn
    obtain ⟨ps, hps, hlen⟩ := ih (fun j hj => h j (List.mem_cons_of_mem _ hj))
    refine ⟨(c, f) :: ps, ?_, by simp [hlen]⟩
    simp [lookupPairs, hc, hf, hps]

/-! ## Claims about Rag.py -/

/-- Claim C2 (counterexample): the claim says an empty index makes
`process_query` return an empty chunk list and empty project-id set. The
faiss search over an empty index returns only `-1` labels, `chunks[-1]`
raises IndexError on the empty chunk list, and the catch-all handler
returns the `(None, None, None)` sentinel — not empty lists. -/
theorem C2_counterexample :
    process_query dedupFirstSeen true [] [] [] [1] 5 = none ∧
    (none : Option QueryOut) ≠ some ⟨[], [], []⟩ := by
  exact ⟨by decide, by decide⟩

/-- Claim C2 (amended): for every query vector and every positive `k`
(the configured top-k is 5), `process_query` over an empty corpus returns
the `(None, None, None)` sentinel: the search pads with `-1` labels, the
first chunk lookup raises IndexError, and the exception is caught — no
error propagates, but the result is the sentinel, not empty lists. -/
theorem C2_empty_index_returns_none (setEnum : List String → List String)
    (qvec : List ℤ) (k : Nat) (hk : 0 < k) :
    process_query setEnum true [] [] [] qvec k = none := by
  obtain ⟨m, rfl⟩ : ∃ m, k = m + 1 := ⟨k - 1, by omega⟩
  have hpy : pyIndex ([] : List String) (-1) = none := by decide
  have hfs : faissSearch [] qvec (m + 1) = List.replicate (m + 1) (-1) := by
    unfold faissSearch
    simp
  unfold process_query
  rw [hfs, List.replicate_succ]
  simp [lookupPairs, hpy]

/-- Witness for C2 at a concrete query vector and k. -/
theorem C2_empty_index_returns_none_witness :
    process_query dedupFirstSeen true [] [] [] [2] 3 = none :=
  C2_empty_index_returns_none dedupFirstSeen [2] 3 (by decide)

/-- Claim C7 (counterexample): the claim says `k` greater than the corpus
size is clamped, returning exactly corpus-size results. With one stored
vector and `k = 2` the search returns labels `[0, -1]`, and Python
indexing turns the `-1` padding into the LAST chunk again: two results
come back for a corpus of one, the second a duplicate. -/
theorem C7_counterexample :
    process_query dedupFirstSeen true ["c0"] ["n7"] [[1]] [1] 2 =
      some ⟨["c0", "c0"], ["n7", "n7"], ["07"]⟩ ∧
    (["c0", "c0"] : List String).length ≠ 1 := by
  exact ⟨by decide, by decide⟩

/-- Claim C7 (amended): over a non-empty corpus, `process_query` never
clamps `k` and never errors: it returns exactly `k` chunks and `k` source
names for every `k`, the labels past the corpus size being the `-1`
padding which Python negative indexing resolves to the last chunk and
name (duplicated entries). -/
theorem C7_k_results (setEnum : List String → List String)
    (chunks names : List String) (index : List (List ℤ)) (qvec : List ℤ) (k : Nat)
    (hc : chunks.length = index.length) (hn : names.length = index.length)
    (hpos : 0 < index.length) :
    ∃ r, process_query setEnum true chunks names index qvec k = some r ∧
      r.top_chunks.length = k ∧ r.top_files.length = k := by
  have hmem : ∀ i ∈ faissSearch index qvec k,
      (pyIndex chunks i).isSome ∧ (pyIndex names i).isSome := by
    intro i hi
    rcases faissSearch_label_cases index qvec k i hi with ⟨j, hj, rfl⟩ | rfl
    · exact ⟨pyIndex_isSome_of_lt chunks j (by omega),
        pyIndex_isSome_of_lt names j (by omega)⟩
    · exact ⟨pyIndex_neg_one_isSome chunks (by omega),
        pyIndex_neg_one_isSome names (by omega)⟩
  obtain ⟨ps, hps, hlen⟩ := lookupPairs_some chunks names _ hmem
  refine ⟨⟨ps.map Prod.fst, ps.map Prod.snd, projectNumbers setEnum (ps.map Prod.snd)⟩,
    ?_, ?_, ?_⟩
  · unfold process_query
    rw [hps]
    rfl
  · simp only [List.length_map]
    rw [hlen, faissSearch_length]
  · simp only [List.length_map]
    rw [hlen, faissSearch_length]

/-- Witness for C7 at a concrete corpus of one document and k = 3. -/
theorem C7_k_results_witness :
    ∃ r, process_query dedupFirstSeen true ["x"] ["9y"] [[2]] [1] 3 = some r ∧
      r.top_chunks.length = 3 ∧ r.top_files.length = 3 :=
  C7_k_results dedupFirstSeen ["x"] ["9y"] [[2]] [1] 3 (by decide) (by decide) (by decide)

/-- Claim C6 (counterexample): the claim says the digit-strings are
deduplicated PRESERVING FIRST-SEEN ORDER. The code uses `list(set(...))`,
whose iteration order CPython leaves unspecified (randomized string
hashing): the reversed enumeration is an admissible set iteration, and
under it a query returning source names "1_b" then "2_a" yields the ids
["02", "01"] — not the first-seen order ["01", "02"] the claim fixes. -/
theorem C6_counterexample :
    SetEnumOK revEnum ∧
    process_query revEnum true ["c", "d"] ["1_b", "2_a"] [[2], [1]] [1] 2 =
      some ⟨["c", "d"], ["1_b", "2_a"], ["02", "01"]⟩ ∧
    claimedProjectIds ["1_b", "2_a"] = ["01", "02"] ∧
    (["02", "01"] : List String) ≠ ["01", "02"] := by
  refine ⟨fun xs => ⟨?_, fun s => ?_⟩, by decide, by decide, by decide⟩
  · simpa [revEnum] using nodup_dedupFirstSeen xs
  · simp [revEnum, mem_dedupFirstSeen]

/-- Claim C6 (amended): the returned project ids are the first maximal
digit run of each top-k source name in rank order (names without digits
contribute nothing), deduplicated in an UNSPECIFIED order — Python set
iteration — and each prefixed with a single literal "0": for every
admissible set enumeration the returned ids are exactly the first-seen
deduplication up to order and without duplicates, and on the source names
"0123_ProjectA" and "0123_ProjectA_v2" — both yielding digit run "0123" —
the result is exactly the single id "00123". -/
theorem C6_project_ids (setEnum : List String → List String) (h : SetEnumOK setEnum) :
    (∀ files : List String,
        (projectNumbers setEnum files).Nodup ∧
        (∀ s, s ∈ projectNumbers setEnum files ↔ s ∈ claimedProjectIds files)) ∧
    projectNumbers setEnum ["0123_ProjectA", "0123_ProjectA_v2"] = ["00123"] := by
  constructor
  · intro files
    constructor
    · exact ((h _).1).map prefixZero_injective
    · intro s
      simp only [projectNumbers, claimedProjectIds, List.mem_map]
      constructor
      · rintro ⟨t, ht, rfl⟩
        exact ⟨t, (mem_dedupFirstSeen _ _).mpr (((h _).2 t).mp ht), rfl⟩
      · rintro ⟨t, ht, rfl⟩
        exact ⟨t, ((h _).2 t).mpr ((mem_dedupFirstSeen _ _).mp ht), rfl⟩
  · have hnums : (["0123_ProjectA", "0123_ProjectA_v2"] : List String).filterMap
        firstNumber = ["0123", "0123"] := by decide
    have hmem : ∀ s, s ∈ setEnum ["0123", "0123"] ↔ s = "0123" := by
      intro s
      rw [(h _).2 s]
      simp
    have hsingle := nodup_singleton_of_mem (h ["0123", "0123"]).1 hmem
    unfold projectNumbers
    rw [hnums, hsingle]
    decide

/-- Witness for C6 with the first-seen enumeration. -/
theorem C6_project_ids_witness :
    projectNumbers dedupFirstSeen ["0123_ProjectA", "0123_ProjectA_v2"] = ["00123"] :=
  (C6_project_ids dedupFirstSeen setEnumOK_dedupFirstSeen).2

/-! ## Claims about utils/security.py -/

theorem evictOld_eq_filter (c : ℤ) (w : List ℤ)
    (hs : List.Sorted (fun a b => a ≤ b) w) :
    evictOld c w = w.filter (fun t => decide (c ≤ t)) := by
  induction w with
  | nil => rfl
  | cons t ts ih =>
    rw [List.sorted_cons] at hs
    by_cases h : t < c
    · rw [evictOld, if_pos h, ih hs.2, List.filter_cons]
      simp [not_le.mpr h]
    · have hct : c ≤ t := not_lt.mp h
      rw [evictOld, if_neg h, List.filter_cons]
      simp only [hct, decide_True, if_true]
      congr 1
      exact (List.filter_eq_self.mpr (fun u hu => by
        simp [le_trans hct (hs.1 u hu)])).symm

theorem evictOld_all_old (c : ℤ) (w : List ℤ) (h : ∀ t ∈ w, t < c) :
    evictOld c w = [] := by
  induction w with
  | nil => rfl
  | cons t ts ih =>
    rw [evictOld, if_pos (h t (List.mem_cons_self t ts))]
    exact ih (fun u hu => h u (List.mem_cons_of_mem t hu))

/-- Claim C5: for a budget of `limit` requests per 60 seconds, a
`check_rate_limit` call finding fewer than `limit` live timestamps (within
the last 60 seconds) allows the request and appends the current time to
the window; a call finding exactly `limit` live timestamps returns
`(False, 0)`, logs a WARNING-severity RATE_LIMIT_EXCEEDED security event,
and appends nothing; and once every recorded timestamp is strictly older
than 60 seconds, the next call is allowed again. The window is assumed
chronological, which every reachable window is (timestamps are appended
with nondecreasing clock values). -/
theorem C5_check_rate_limit (limit : Nat) (cid : String) (now : ℤ) (w : List ℤ)
    (hs : List.Sorted (fun a b => a ≤ b) w) (hpos : 0 < limit) :
    ((w.filter (fun t => decide (now - 60 ≤ t))).length < limit →
      check_rate_limit limit cid now w =
        { allowed := true,
          remaining := limit - (w.filter (fun t => decide (now - 60 ≤ t))).length - 1,
          window := w.filter (fun t => decide (now - 60 ≤ t)) ++ [now], events := [] }) ∧
    ((w.filter (fun t => decide (now - 60 ≤ t))).length = limit →
      check_rate_limit limit cid now w =
        { allowed := false, remaining := 0,
          window := w.filter (fun t => decide (now - 60 ≤ t)),
          events := [("RATE_LIMIT_EXCEEDED",
            "Client " ++ cid ++ " exceeded rate limit", "WARNING")] }) ∧
    ((∀ t ∈ w, t < now - 60) → (check_rate_limit limit cid now w).allowed = true) := by
  refine ⟨fun hlt => ?_, fun heq => ?_, fun hold => ?_⟩
  · unfold check_rate_limit
    rw [evictOld_eq_filter _ _ hs, if_neg (by omega)]
  · unfold check_rate_limit
    rw [evictOld_eq_filter _ _ hs, if_pos (by omega)]
  · unfold check_rate_limit
    rw [evictOld_all_old _ _ hold]
    simp only [List.length_nil]
    rw [if_neg (by omega)]

/-- Witness for C5: with budget 2 and one live timestamp, the call is
allowed, consumes a slot, and reports the remaining budget. -/
theorem C5_check_rate_limit_witness :
    check_rate_limit 2 "client-a" 100 [10, 70] =
      { allowed := true, remaining := 0, window := [70, 100], events := [] } := by
  have h := (C5_check_rate_limit 2 "client-a" 100 [10, 70] (by decide) (by decide)).1
    (by decide)
  rw [h]
  decide

/-- Claim C10: `get_session_info` is not read-only. Every call runs
`check_rate_limit` for the session client: while the client is under
budget the call appends a fresh timestamp to the rate-limit window
(consuming one request slot, so repeated `get_session_info` calls alone
exhaust the budget), and at budget it logs the WARNING-severity
RATE_LIMIT_EXCEEDED event and reports 0 remaining. -/
theorem C10_session_info_consumes_slot (limit : Nat) (cid : String) (now : ℤ)
    (w : List ℤ) (hs : List.Sorted (fun a b => a ≤ b) w) :
    ((w.filter (fun t => decide (now - 60 ≤ t))).length < limit →
      get_session_info limit cid now w =
        ({ client_id := cid,
           rate_limit_remaining :=
             limit - (w.filter (fun t => decide (now - 60 ≤ t))).length - 1,
           requests_made := (w.filter (fun t => decide (now - 60 ≤ t))).length + 1 },
         w.filter (fun t => decide (now - 60 ≤ t)) ++ [now], [])) ∧
    ((w.filter (fun t => decide (now - 60 ≤ t))).length = limit →
      get_session_info limit cid now w =
        ({ client_id := cid, rate_limit_remaining := 0, requests_made := limit },
         w.filter (fun t => decide (now - 60 ≤ t)),
         [("RATE_LIMIT_EXCEEDED", "Client " ++ cid ++ " exceeded rate limit",
           "WARNING")])) := by
  refine ⟨fun hlt => ?_, fun heq => ?_⟩
  · unfold get_session_info check_rate_limit
    rw [evictOld_eq_filter _ _ hs, if_neg (by omega)]
    simp
  · unfold get_session_info check_rate_limit
    rw [evictOld_eq_filter _ _ hs, if_pos (by omega)]
    dsimp only
    rw [heq]

/-- Witness for C10: one `get_session_info` call on an empty window with
budget 1 appends a timestamp — a second call at the same instant would be
rate-limited. -/
theorem C10_session_info_consumes_slot_witness :
    get_session_info 1 "c" 0 [] =
      ({ client_id := "c", rate_limit_remaining := 0, requests_made := 1 }, [0], []) := by
  have h := (C10_session_info_consumes_slot 1 "c" 0 [] (by decide)).1 (by decide)
  rw [h]
  decide

/-! ## Claims about services/llm_service.py -/

/-- Claim C3: the spec says `generate_response` retries transient and
throttling backend failures with exponential backoff, up to 3 attempts.
The code imports the tenacity retry machinery but never applies it: on a
throttling-class ClientError from the first converse call the function
makes EXACTLY ONE backend invocation, increments the error counter, and
surfaces the failure immediately — no second attempt exists. -/
theorem C3_no_retry :
    generate_response 1000 (fun _ => false) id (fun _ => none) id
      (fun _ => BackendOutcome.clientError
        "An error occurred (ThrottlingException) when calling the Converse operation: Too many requests, please wait before trying again.")
      ⟨false, false, false, 0, 0⟩ "What projects are available?" none =
    ⟨failResult ("❌ [Bedrock API Error] "
        ++ "An error occurred (ThrottlingException) when calling the Converse operation: Too many requests, please wait before trying again."),
      1, ⟨false, false, false, 1, 1⟩⟩ := by
  decide

/-- Claim C4 (counterexample): the claim quantifies over EVERY
`generate_response` call, but an instance already switched to the mock
fallback delegates before any check runs: the empty prompt — which
`validate_input` rejects — comes back as a SUCCESSFUL mock result, not the
claimed failed result (the backend is still never invoked). -/
theorem C4_counterexample :
    (validate_input 1000 (fun _ => false) id "").1 = false ∧
    (generate_response 1000 (fun _ => false) id (fun _ => none) id
      (fun _ => BackendOutcome.exc "unreachable")
      ⟨true, true, true, 0, 0⟩ "" none).result.success = true ∧
    (generate_response 1000 (fun _ => false) id (fun _ => none) id
      (fun _ => BackendOutcome.exc "unreachable")
      ⟨true, true, true, 0, 0⟩ "" none).backendCalls = 0 := by
  exact ⟨by decide, by decide, by decide⟩

/-- Claim C4 (amended): whenever the service is NOT in mock-fallback mode,
the prompt goes through `validate_input` and then `check_content_policy`
(on the sanitized prompt) before any backend call, and if either rejects
it the call returns a failed result (success = False) with zero backend
invocations — for every denylist, sanitizer, policy and backend behavior.
In mock-fallback mode the checks are skipped and the mock answers, still
with zero backend invocations. -/
theorem C4_gate_short_circuit (maxLen : Nat) (blockedHit : String → Bool)
    (sanitize : String → String) (policyHit : String → Option String)
    (redact : String → String) (backend : String → BackendOutcome)
    (st : LLMState) (prompt : String) (ctx : Option String)
    (hmode : ¬(st.use_mock = true ∧ st.mock_ready = true))
    (hrej : (validate_input maxLen blockedHit sanitize prompt).1 = false ∨
      (check_content_policy policyHit
        (validate_input maxLen blockedHit sanitize prompt).2).1 = false) :
    (generate_response maxLen blockedHit sanitize policyHit redact backend
      st prompt ctx).result.success = false ∧
    (generate_response maxLen blockedHit sanitize policyHit redact backend
      st prompt ctx).backendCalls = 0 := by
  have hb : (st.use_mock && st.mock_ready) = false := by
    cases hu : st.use_mock <;> cases hm : st.mock_ready <;> simp_all
  unfold generate_response
  rw [hb]
  simp only [Bool.false_eq_true, if_false]
  by_cases he : isBlank prompt
  · rw [if_pos he]
    exact ⟨rfl, rfl⟩
  · rw [if_neg he]
    by_cases hv : (validate_input maxLen blockedHit sanitize prompt).1 = false
    · rw [if_pos hv]
      exact ⟨rfl, rfl⟩
    · rw [if_neg hv]
      rcases hrej with h | h
      · exact absurd h hv
      · rw [if_pos h]
        exact ⟨rfl, rfl⟩

/-- Witness for C4: a prompt hitting the denylist in a non-mock instance
yields a failed result and zero backend invocations. -/
theorem C4_gate_short_circuit_witness :
    (generate_response 1000 (fun s => strContains s "drop table") id
      (fun _ => none) id (fun _ => BackendOutcome.ok (some "hi"))
      ⟨false, false, true, 0, 0⟩ "x; DROP TABLE users" none).result.success = false ∧
    (generate_response 1000 (fun s => strContains s "drop table") id
      (fun _ => none) id (fun _ => BackendOutcome.ok (some "hi"))
      ⟨false, false, true, 0, 0⟩ "x; DROP TABLE users" none).backendCalls = 0 :=
  C4_gate_short_circuit 1000 (fun s => strContains s "drop table") id
    (fun _ => none) id (fun _ => BackendOutcome.ok (some "hi"))
    ⟨false, false, true, 0, 0⟩ "x; DROP TABLE users" none
    (by simp) (Or.inl (by decide))
